import Mathlib

/-!
Shallow embedding of the `gpio_button` Linux platform driver
(`gpio_button.c` of the orangepi5_blinky_and_button repository), together
with theorems settling the behavioural claims about its debounce
controller, event delivery, LED attribute and lifecycle handling.

The driver's global state (`debounce_active`, `button_event_flag`,
`led_status` and the LED line level written through `gpiod_set_value`)
is modelled as a record; the interrupt handler, timer expiry callback,
`read` file operation and the two sysfs accessors are translated into
pure functions over that record.  Context parameters that the kernel
supplies (sampled button level, pending-signal status, `copy_to_user`
failure) become explicit arguments.
-/

namespace GpioButton

/-- Error numbers used by the driver (`-EINVAL`, `-ERANGE`, `-EFAULT`,
`-ERESTARTSYS` are returned as negated values, as in the kernel). -/
def EINVAL : Int := 22

/-- errno for a range overflow in `kstrtoul`. -/
def ERANGE : Int := 34

/-- errno for a failing `copy_to_user`. -/
def EFAULT : Int := 14

/-- errno returned by `wait_event_interruptible` on signal delivery. -/
def ERESTARTSYS : Int := 512

/-- The driver's mutable module state: the two atomic flags
(`debounce_active`, `button_event_flag`), the `led_status` variable and
the logical level last written to the LED line. -/
structure DrvState where
  debounce_active : Bool
  button_event_flag : Bool
  led_status : Int
  led_line : Int
deriving DecidableEq, Repr

/-- State at module attach: both atomics are `ATOMIC_INIT(0)`,
`led_status` starts at `0`, and the LED line is requested with
`GPIOD_OUT_LOW` (level 0). -/
def initState : DrvState :=
  { debounce_active := false, button_event_flag := false
    led_status := 0, led_line := 0 }

/-- Model of `debounce_timer_callback`: samples the button level
(`button_state`, the `gpiod_get_value` result passed in explicitly);
if it is 0 (active-low pressed) it sets `button_event_flag` and wakes
the wait queue, and in both cases clears `debounce_active`.  The
returned `Bool` records whether `wake_up(&button_wait)` was called. -/
def debounce_timer_callback (s : DrvState) (button_state : Int) :
    DrvState × Bool :=
  if button_state = 0 then
    ({ s with button_event_flag := true, debounce_active := false }, true)
  else
    ({ s with debounce_active := false }, false)

/-- Model of `gpio_button_isr`: if `debounce_active` is set the edge is
ignored, otherwise the guard is set and `mod_timer` arms the debounce
timer for 50 ms.  The returned `Bool` records whether `mod_timer` was
called. -/
def gpio_button_isr (s : DrvState) : DrvState × Bool :=
  if s.debounce_active then (s, false)
  else ({ s with debounce_active := true }, true)

/-- Result of the `read` file operation: either a negative errno or the
bytes copied to the user buffer (the returned count is their number). -/
inductive ReadResult where
  | err (code : Int)
  | ok (bytes : List Char)
deriving DecidableEq, Repr

/-- Model of `gpio_button_read`.  `len` is the caller's requested length
(unused by the code, kept to mirror the signature), `signalPending`
says whether a signal is delivered while waiting, `copyFails` whether
`copy_to_user` faults.  `wait_event_interruptible` returns 0 at once
when `button_event_flag` is already set; otherwise a pending signal
yields `-ERESTARTSYS` with no state change, and with no event and no
signal the call stays blocked (`none` in this sequential model).  On
wakeup the flag is cleared *before* `copy_to_user` runs, so a copy
fault returns `-EFAULT` with the flag already consumed. -/
def gpio_button_read (s : DrvState) (len : Nat)
    (signalPending : Bool) (copyFails : Bool) :
    Option (DrvState × ReadResult) :=
  if s.button_event_flag then
    if copyFails then
      some ({ s with button_event_flag := false }, .err (-EFAULT))
    else
      some ({ s with button_event_flag := false }, .ok ['1'])
  else if signalPending then some (s, .err (-ERESTARTSYS))
  else none

/-- Model of `gpio_button_poll`: reports read-readiness exactly when
`button_event_flag` is set, without consuming it. -/
def gpio_button_poll (s : DrvState) : Bool :=
  s.button_event_flag

/-- C1: the timer expiry callback samples the button level; exactly when
the sample is 0 (active-low pressed) it sets the pending event flag and
wakes all waiters, and in every case it clears the debounce guard. -/
theorem C1_timer_expiry (s : DrvState) (lvl : Int) :
    ((debounce_timer_callback s lvl).2 = true ↔ lvl = 0) ∧
    (debounce_timer_callback s lvl).1.button_event_flag
      = (decide (lvl = 0) || s.button_event_flag) ∧
    (lvl = 0 → (debounce_timer_callback s lvl).1.button_event_flag = true) ∧
    (lvl ≠ 0 → (debounce_timer_callback s lvl).1.button_event_flag
      = s.button_event_flag) ∧
    (debounce_timer_callback s lvl).1.debounce_active = false := by
  unfold debounce_timer_callback
  by_cases h : lvl = 0 <;> simp [h]

/-- Witness for C1 at a concrete pressed sample and a concrete released
sample. -/
theorem C1_timer_expiry_witness :
    (debounce_timer_callback initState 0).1.button_event_flag = true ∧
    (debounce_timer_callback initState 1).1.button_event_flag
      = initState.button_event_flag := by
  exact ⟨(C1_timer_expiry initState 0).2.2.1 rfl,
         (C1_timer_expiry initState 1).2.2.2.1 (by decide)⟩

/-- A burst of `n` edge interrupts inside one debounce window: the ISR
runs `n` times back-to-back with no intervening timer expiry.  Returns
the final state and the number of `mod_timer` arming calls. -/
def edgeBurst : Nat → DrvState → DrvState × Nat
  | 0, s => (s, 0)
  | n + 1, s =>
    let r := gpio_button_isr s
    let rest := edgeBurst n r.1
    (rest.1, (if r.2 then 1 else 0) + rest.2)

/-- The values of `button_event_flag` observed after each ISR of an
`n`-edge burst. -/
def edgeFlagTrace : Nat → DrvState → List Bool
  | 0, _ => []
  | n + 1, s =>
    let s1 := (gpio_button_isr s).1
    s1.button_event_flag :: edgeFlagTrace n s1

/-- Number of `false → true` transitions along a list of flag values,
starting from a given previous value. -/
def flagRises : Bool → List Bool → Nat
  | _, [] => 0
  | prev, b :: rest =>
    (if prev = false ∧ b = true then 1 else 0) + flagRises b rest

/-- Flag values observed over one full debounce window: `n` edges, then
the single timer expiry sampling level `lvl`. -/
def windowFlagTrace (n : Nat) (lvl : Int) (s : DrvState) : List Bool :=
  edgeFlagTrace n s ++
    [(debounce_timer_callback (edgeBurst n s).1 lvl).1.button_event_flag]

theorem isr_preserves_flag (s : DrvState) :
    (gpio_button_isr s).1.button_event_flag = s.button_event_flag := by
  unfold gpio_button_isr
  by_cases h : s.debounce_active <;> simp [h]

theorem isr_guard_after (s : DrvState) :
    (gpio_button_isr s).1.debounce_active = true := by
  unfold gpio_button_isr
  by_cases h : s.debounce_active <;> simp [h]

theorem edgeBurst_no_arm_when_guarded :
    ∀ (n : Nat) (s : DrvState), s.debounce_active = true →
      (edgeBurst n s).2 = 0 ∧ (edgeBurst n s).1 = s := by
  intro n
  induction n with
  | zero => intro s _; exact ⟨rfl, rfl⟩
  | succ n ih =>
    intro s h
    have hisr : gpio_button_isr s = (s, false) := by
      unfold gpio_button_isr; simp [h]
    simp only [edgeBurst, hisr]
    simpa using ih s h

theorem edgeBurst_flag :
    ∀ (n : Nat) (s : DrvState),
      (edgeBurst n s).1.button_event_flag = s.button_event_flag := by
  intro n
  induction n with
  | zero => intro s; rfl
  | succ n ih =>
    intro s
    simp only [edgeBurst]
    rw [ih, isr_preserves_flag]

theorem edgeFlagTrace_const :
    ∀ (n : Nat) (s : DrvState) (b : Bool), b ∈ edgeFlagTrace n s →
      b = s.button_event_flag := by
  intro n
  induction n with
  | zero => intro s b h; simp [edgeFlagTrace] at h
  | succ n ih =>
    intro s b h
    simp only [edgeFlagTrace, List.mem_cons] at h
    rcases h with h | h
    · rw [h, isr_preserves_flag]
    · rw [ih _ _ h, isr_preserves_flag]

theorem flagRises_const_append (x : Bool) :
    ∀ (l : List Bool) (prev : Bool), (∀ b ∈ l, b = prev) →
      flagRises prev (l ++ [x]) ≤ 1 := by
  intro l
  induction l with
  | nil =>
    intro prev _
    simp only [List.nil_append, flagRises]
    split <;> simp
  | cons b rest ih =>
    intro prev hall
    have hb : b = prev := hall b (List.mem_cons_self b rest)
    have hrest : ∀ c ∈ rest, c = prev := fun c hc =>
      hall c (List.mem_cons_of_mem b hc)
    simp only [List.cons_append, flagRises]
    rw [hb]
    have : ¬ (prev = false ∧ prev = true) := by
      intro ⟨h1, h2⟩; rw [h1] at h2; exact Bool.false_ne_true h2
    simp only [this, if_false]
    simpa using ih prev hrest

/-- C2: an edge interrupt during an open debounce window is ignored and
changes no state; otherwise the guard is set and the timer armed for
50 ms.  Hence any burst of `n ≥ 1` edges inside one window causes at
most one timer arming and, over the whole window (edges followed by the
single expiry), at most one `false → true` transition of the pending
event flag. -/
theorem C2_isr_coalescing (s : DrvState) (n : Nat) (lvl : Int)
    (hn : 1 ≤ n) :
    (s.debounce_active = true → gpio_button_isr s = (s, false)) ∧
    (s.debounce_active = false →
      gpio_button_isr s = ({ s with debounce_active := true }, true)) ∧
    (edgeBurst n s).2 ≤ 1 ∧
    flagRises s.button_event_flag (windowFlagTrace n lvl s) ≤ 1 := by
  refine ⟨?_, ?_, ?_, ?_⟩
  · intro h; unfold gpio_button_isr; simp [h]
  · intro h; unfold gpio_button_isr; simp [h]
  · obtain ⟨m, rfl⟩ : ∃ m, n = m + 1 := ⟨n - 1, by omega⟩
    simp only [edgeBurst]
    have hguard : ((gpio_button_isr s).1).debounce_active = true :=
      isr_guard_after s
    have h0 := (edgeBurst_no_arm_when_guarded m (gpio_button_isr s).1 hguard).1
    rw [h0]
    split <;> simp
  · exact flagRises_const_append _ (edgeFlagTrace n s) _
      (edgeFlagTrace_const n s)

/-- Witness for C2: a burst of three edges from the idle state arms the
timer exactly once, and the window shows exactly one flag rise. -/
theorem C2_isr_coalescing_witness :
    (edgeBurst 3 initState).2 ≤ 1 ∧
    flagRises initState.button_event_flag (windowFlagTrace 3 0 initState) ≤ 1
    := by
  have h := C2_isr_coalescing initState 3 0 (by decide)
  exact ⟨h.2.2.1, h.2.2.2⟩

/-- One debounced press being signalled: the timer expiry callback runs
with the button sampled pressed (level 0).  Only the resulting state is
kept. -/
def press (s : DrvState) : DrvState :=
  (debounce_timer_callback s 0).1

/-- `k` presses signalled in a row with no intervening `read`. -/
def pressIter : Nat → DrvState → DrvState
  | 0, s => s
  | k + 1, s => pressIter k (press s)

theorem press_press (s : DrvState) : press (press s) = press s := by
  simp [press, debounce_timer_callback]

theorem pressIter_succ :
    ∀ (k : Nat) (s : DrvState), pressIter (k + 1) s = press s := by
  intro k
  induction k with
  | zero => intro s; rfl
  | succ k ih =>
    intro s
    have h1 : pressIter (k + 1 + 1) s = pressIter (k + 1) (press s) := rfl
    rw [h1, ih, press_press]

/-- C4: a blocked `read` that is interrupted by a signal before the
pending event flag becomes true returns `-ERESTARTSYS` and leaves the
state (in particular the flag) unchanged; a press signalled afterwards
is still delivered to the next `read`. -/
theorem C4_read_interrupted (s : DrvState) (len len' : Nat) (cf : Bool)
    (h : s.button_event_flag = false) :
    gpio_button_read s len true cf = some (s, .err (-ERESTARTSYS)) ∧
    gpio_button_read (press s) len' false false
      = some ({ press s with button_event_flag := false }, .ok ['1']) := by
  constructor
  · unfold gpio_button_read
    simp [h]
  · unfold gpio_button_read
    simp [press, debounce_timer_callback]

/-- Witness for C4 from the idle attach state. -/
theorem C4_read_interrupted_witness :
    gpio_button_read initState 4 true false
      = some (initState, .err (-ERESTARTSYS)) ∧
    gpio_button_read (press initState) 4 false false
      = some ({ press initState with button_event_flag := false },
              .ok ['1']) :=
  C4_read_interrupted initState 4 4 false rfl

/-- C5: the pending event flag is single-slot.  Signalling a press when
one is already pending changes nothing (any `k ≥ 1` presses leave the
same state as one), exactly one pending event exists, one successful
`read` drains it to false, and a further `read` finds no fabricated
second event (it stays blocked). -/
theorem C5_single_slot (s : DrvState) (k len : Nat) (hk : 1 ≤ k) :
    pressIter k s = press s ∧
    (press s).button_event_flag = true ∧
    gpio_button_read (press s) len false false
      = some ({ press s with button_event_flag := false }, .ok ['1']) ∧
    gpio_button_read { press s with button_event_flag := false }
      len false false = none := by
  refine ⟨?_, ?_, ?_, ?_⟩
  · obtain ⟨m, rfl⟩ : ∃ m, k = m + 1 := ⟨k - 1, by omega⟩
    exact pressIter_succ m s
  · simp [press, debounce_timer_callback]
  · unfold gpio_button_read
    simp [press, debounce_timer_callback]
  · unfold gpio_button_read
    simp

/-- Witness for C5: three presses from the idle state equal one press,
and one read drains the flag. -/
theorem C5_single_slot_witness :
    pressIter 3 initState = press initState ∧
    gpio_button_read { press initState with button_event_flag := false }
      1 false false = none := by
  have h := C5_single_slot initState 3 1 (by decide)
  exact ⟨h.1, h.2.2.2⟩

/-- C9: `read` clears the pending event flag before `copy_to_user`, so
a failing copy returns `-EFAULT` with the flag already cleared: the
pending event is consumed and lost. -/
theorem C9_read_clears_before_copy (s : DrvState) (len : Nat) (sig : Bool)
    (h : s.button_event_flag = true) :
    gpio_button_read s len sig true
      = some ({ s with button_event_flag := false }, .err (-EFAULT)) ∧
    gpio_button_read { s with button_event_flag := false } len false false
      = none := by
  constructor
  · unfold gpio_button_read
    simp [h]
  · unfold gpio_button_read
    simp

/-- Witness for C9 with a pending event in the idle state. -/
theorem C9_read_clears_before_copy_witness :
    gpio_button_read { initState with button_event_flag := true }
      1 false true
      = some (initState, .err (-EFAULT)) := by
  have h := (C9_read_clears_before_copy
    { initState with button_event_flag := true } 1 false rfl).1
  simpa using h

/-- C10: `read` ignores the requested length entirely; a successful
read always copies exactly the single marker byte `'1'` and returns
count 1 — never 0 bytes and never more than one byte. -/
theorem C10_read_ignores_length (s : DrvState) (len len' : Nat)
    (sig cf : Bool) :
    gpio_button_read s len sig cf = gpio_button_read s len' sig cf ∧
    (∀ s' bs, gpio_button_read s len sig cf = some (s', .ok bs) →
      bs = ['1'] ∧ bs.length = 1) := by
  constructor
  · rfl
  · intro s' bs h
    unfold gpio_button_read at h
    split_ifs at h <;>
    first
      | exact Option.noConfusion h
      | (have h3 : (['1'] : List Char) = bs := by
           have h2 := congrArg Prod.snd (Option.some.inj h)
           injection h2
         exact ⟨h3.symm, h3 ▸ rfl⟩)

/-- Witness for C10: a zero-length request and a 99-byte request behave
identically, and the successful read yields the one marker byte. -/
theorem C10_read_ignores_length_witness :
    (gpio_button_read { initState with button_event_flag := true }
        0 false false
      = gpio_button_read { initState with button_event_flag := true }
        99 false false) ∧
    (['1'] : List Char) = ['1'] ∧ (['1'] : List Char).length = 1 := by
  have h := C10_read_ignores_length
    { initState with button_event_flag := true } 0 99 false false
  exact ⟨h.1, h.2 initState ['1'] (by decide)⟩

/-- Numeric value of a digit string (most significant digit first). -/
def decVal (ds : List Char) : Nat :=
  ds.foldl (fun a c => a * 10 + (c.toNat - 48)) 0

/-- Model of the kernel library function `kstrtoul(s, 10, &val)` on a
64-bit target (an external collaborator of the driver, modelled from
its documented `lib/kstrtox.c` semantics): an optional leading `'+'`
is skipped, then a nonempty run of decimal digits is parsed (empty →
`-EINVAL`, value ≥ 2^64 → `-ERANGE`), one trailing `'\n'` after the
digits is tolerated, and any other remaining character is `-EINVAL`. -/
def kstrtoul (s : List Char) : Except Int Nat :=
  let s1 := if s.head? = some '+' then s.tail else s
  let ds := s1.takeWhile Char.isDigit
  if ds.isEmpty then .error (-EINVAL)
  else if 2 ^ 64 ≤ decVal ds then .error (-ERANGE)
  else
    let rest := s1.drop ds.length
    let rest2 := if rest.head? = some '\n' then rest.tail else rest
    if rest2.isEmpty then .ok (decVal ds) else .error (-EINVAL)

/-- The newline strip performed by `led_status_store` on the raw input
buffer: `if (count && local_buf[count-1] == '\n') local_buf[count-1] = 0`. -/
def stripRaw (input : List Char) : List Char :=
  if input.length ≠ 0 ∧ input.getLast? = some '\n' then input.dropLast
  else input

/-- The C string that `kstrtoul` sees: the buffer up to the first NUL
byte (the store copies `count` bytes and NUL-terminates). -/
def cstrOf (l : List Char) : List Char :=
  l.takeWhile (fun c => c ≠ Char.ofNat 0)

/-- Model of the sysfs store `led_status_store`: inputs of 16 bytes or
more are rejected with `-EINVAL` (`local_buf` is 16 bytes); one
trailing newline is stripped; the result is parsed with
`kstrtoul(..., 10, ...)`; a parse error is returned as is; a parsed
value other than 0 or 1 is rejected with `-EINVAL`; on success
`led_status` is stored, `gpiod_set_value` drives the LED line, and the
full `count` is returned. -/
def led_status_store (s : DrvState) (input : List Char) :
    DrvState × Except Int Nat :=
  let count := input.length
  if 16 ≤ count then (s, .error (-EINVAL))
  else
    match kstrtoul (cstrOf (stripRaw input)) with
    | .error e => (s, .error e)
    | .ok val =>
      if val ≠ 0 ∧ val ≠ 1 then (s, .error (-EINVAL))
      else
        ({ s with led_status := (val : Int), led_line := (val : Int) },
         .ok count)

/-- Model of the sysfs show `led_status_show`:
`sprintf(buf, "%d\n", led_status)`. -/
def led_status_show (s : DrvState) : String :=
  toString s.led_status ++ "\n"

/-- Acceptance condition of the store as the code implements it:
length under 16 and `kstrtoul` of the stripped C string yielding 0
or 1. -/
def storeAccepts (input : List Char) : Bool :=
  decide (input.length < 16) &&
    match kstrtoul (cstrOf (stripRaw input)) with
    | .ok v => decide (v = 0 ∨ v = 1)
    | .error _ => false

/-- Acceptance condition as claim C7 states it: under the length limit,
nonempty, and after stripping one trailing newline the input must
itself be an unsigned decimal numeral whose value is 0 or 1. -/
def claimC7Accepts (input : List Char) : Bool :=
  decide (input.length < 16) && !input.isEmpty &&
    (let l := if input.getLast? = some '\n' then input.dropLast else input
     !l.isEmpty && l.all Char.isDigit &&
       decide (decVal l = 0 ∨ decVal l = 1))

/-- Counterexample to C7 as stated: the input `"1\n\n"` is not — after
stripping one trailing newline — an unsigned decimal numeral (`"1\n"`
still contains a newline), so the claim demands rejection with no
state change; but the code accepts it (`kstrtoul` itself tolerates one
further trailing newline), stores 1 and drives the LED line. -/
theorem C7_claim_counterexample :
    (led_status_store initState ['1', '\n', '\n']).2 = .ok 3 ∧
    (led_status_store initState ['1', '\n', '\n']).1.led_status = 1 ∧
    (led_status_store initState ['1', '\n', '\n']).1.led_line = 1 ∧
    claimC7Accepts ['1', '\n', '\n'] = false :=
  ⟨rfl, rfl, rfl, rfl⟩

/-- C7 as amended: `set` rejects the input with an error and leaves the
stored LED state and the LED line level unchanged unless its length is
under the 16-byte limit and, after the store strips one trailing
newline, the remaining C string parses under `kstrtoul` base-10
semantics (which additionally tolerate a leading `'+'` and one further
trailing newline) to exactly 0 or 1; inputs of 16 bytes or more and
the empty input are always rejected; on an accepted input the parsed
value becomes the stored LED state and the LED line level, and the
full byte count is returned. -/
theorem C7_store_characterization (s : DrvState) (input : List Char) :
    (storeAccepts input = false →
      (led_status_store s input).1 = s ∧
      ∃ e, (led_status_store s input).2 = .error e) ∧
    (storeAccepts input = true →
      ∃ v : Nat, (v = 0 ∨ v = 1) ∧
        kstrtoul (cstrOf (stripRaw input)) = .ok v ∧
        led_status_store s input
          = ({ s with led_status := (v : Int), led_line := (v : Int) },
             .ok input.length)) ∧
    (16 ≤ input.length → storeAccepts input = false) ∧
    (input = [] → storeAccepts input = false) := by
  refine ⟨?_, ?_, ?_, ?_⟩
  · intro hrej
    unfold led_status_store
    by_cases hlen : 16 ≤ input.length
    · simp [hlen]
    · have hlt : input.length < 16 := by omega
      cases hk : kstrtoul (cstrOf (stripRaw input)) with
      | error e => simp [if_neg hlen, hk]
      | ok v =>
        have hv : v ≠ 0 ∧ v ≠ 1 := by
          unfold storeAccepts at hrej
          rw [hk] at hrej
          constructor <;> intro hv0 <;> subst hv0 <;>
            simp [hlt] at hrej
        simp [if_neg hlen, hk, hv]
  · intro hacc
    unfold storeAccepts at hacc
    have hlen : input.length < 16 := by
      by_contra hc
      simp [show ¬ input.length < 16 from hc] at hacc
    cases hk : kstrtoul (cstrOf (stripRaw input)) with
    | error e => rw [hk] at hacc; simp at hacc
    | ok v =>
      rw [hk] at hacc
      simp only [decide_eq_true_eq, Bool.and_eq_true, decide_eq_true_eq]
        at hacc
      refine ⟨v, hacc.2, rfl, ?_⟩
      unfold led_status_store
      have hnot : ¬ 16 ≤ input.length := by omega
      simp only [if_neg hnot, hk]
      have : ¬ (v ≠ 0 ∧ v ≠ 1) := by
        rcases hacc.2 with h | h <;> simp [h]
      simp [this]
  · intro hlen
    unfold storeAccepts
    simp [show ¬ input.length < 16 from by omega]
  · intro hempty
    subst hempty
    decide

/-- Witness for C7's amended characterization: `"1"` is accepted and
stores 1; `"2"` and a 16-byte input are rejected with the state
untouched. -/
theorem C7_store_characterization_witness :
    led_status_store initState ['1']
      = ({ initState with led_status := 1, led_line := 1 }, .ok 1) ∧
    (led_status_store initState ['2']).1 = initState ∧
    (led_status_store initState (List.replicate 16 '1')).1 = initState := by
  refine ⟨?_, ?_, ?_⟩
  · obtain ⟨v, hv01, hkv, heq⟩ :=
      (C7_store_characterization initState ['1']).2.1 (by decide)
    have hv1 : v = 1 := by
      have h1 : kstrtoul (cstrOf (stripRaw ['1'])) = .ok 1 := rfl
      rw [h1] at hkv
      injection hkv with h2
      exact h2.symm
    rw [hv1] at heq
    exact heq
  · exact ((C7_store_characterization initState ['2']).1 (by decide)).1
  · exact ((C7_store_characterization initState
      (List.replicate 16 '1')).1 (by decide)).1

/-- The operations that can touch the driver state after attach: an
edge interrupt, a timer expiry (with its sampled level), a `read`
(with its context parameters), a sysfs store, and a sysfs show. -/
inductive SysOp where
  | edge
  | timerExpiry (level : Int)
  | readOp (len : Nat) (sig : Bool) (cf : Bool)
  | ledStore (input : List Char)
  | ledShow

/-- State transition of one operation (a `read` that stays blocked or
a show leaves the state unchanged). -/
def sysStep (s : DrvState) (op : SysOp) : DrvState :=
  match op with
  | .edge => (gpio_button_isr s).1
  | .timerExpiry lvl => (debounce_timer_callback s lvl).1
  | .readOp len sig cf =>
    match gpio_button_read s len sig cf with
    | some (s', _) => s'
    | none => s
  | .ledStore input => (led_status_store s input).1
  | .ledShow => s

/-- The state reached from attach by a sequence of operations. -/
def reachState (ops : List SysOp) : DrvState :=
  ops.foldl sysStep initState

theorem store_led_cases (s : DrvState) (input : List Char) :
    (led_status_store s input).1.led_status = s.led_status ∨
    (led_status_store s input).1.led_status = 0 ∨
    (led_status_store s input).1.led_status = 1 := by
  unfold led_status_store
  by_cases hlen : 16 ≤ input.length
  · simp [hlen]
  · cases hk : kstrtoul (cstrOf (stripRaw input)) with
    | error e => simp [if_neg hlen, hk]
    | ok v =>
      by_cases hv : v ≠ 0 ∧ v ≠ 1
      · simp [if_neg hlen, hk, hv]
      · have hv01 : v = 0 ∨ v = 1 := by
          rcases not_and_or.mp hv with h | h
          · exact Or.inl (not_not.mp h)
          · exact Or.inr (not_not.mp h)
        rcases hv01 with h | h <;>
          simp [if_neg hlen, hk, hv, h]

theorem sysStep_led_cases (s : DrvState) (op : SysOp) :
    (sysStep s op).led_status = s.led_status ∨
    (sysStep s op).led_status = 0 ∨ (sysStep s op).led_status = 1 := by
  cases op with
  | edge =>
    left
    unfold sysStep gpio_button_isr
    by_cases h : s.debounce_active <;> simp [h]
  | timerExpiry lvl =>
    left
    unfold sysStep debounce_timer_callback
    by_cases h : lvl = 0 <;> simp [h]
  | readOp len sig cf =>
    left
    unfold sysStep gpio_button_read
    by_cases hf : s.button_event_flag <;> by_cases hc : cf <;>
      by_cases hs : sig <;> simp [hf, hc, hs]
  | ledStore input => exact store_led_cases s input
  | ledShow => left; rfl

/-- C8: in every state reachable from attach, the stored LED state is
0 or 1 (it starts at 0 and every operation preserves the constraint),
and `led_status_show` renders exactly that value as the digit followed
by a newline. -/
theorem C8_led_state_invariant (ops : List SysOp) :
    ((reachState ops).led_status = 0 ∨ (reachState ops).led_status = 1) ∧
    led_status_show (reachState ops)
      = toString (reachState ops).led_status ++ "\n" ∧
    (led_status_show (reachState ops) = "0\n" ∨
     led_status_show (reachState ops) = "1\n") := by
  have key : ∀ (l : List SysOp) (s : DrvState),
      s.led_status = 0 ∨ s.led_status = 1 →
      (l.foldl sysStep s).led_status = 0 ∨
      (l.foldl sysStep s).led_status = 1 := by
    intro l
    induction l with
    | nil => intro s h; exact h
    | cons op rest ih =>
      intro s h
      have hstep := sysStep_led_cases s op
      refine ih (sysStep s op) ?_
      rcases hstep with he | he | he
      · rw [he]; exact h
      · exact Or.inl he
      · exact Or.inr he
  have h01 : (reachState ops).led_status = 0 ∨
      (reachState ops).led_status = 1 :=
    key ops initState (Or.inl rfl)
  refine ⟨h01, rfl, ?_⟩
  unfold led_status_show
  rcases h01 with h | h <;> rw [h]
  · left; rfl
  · right; rfl

/-- The teardown actions performed by `gpio_button_remove`, in source
order. -/
inductive RemoveAct where
  | disableIrq
  | timerDeleteSync
  | deviceRemoveFile
  | destroySysfsDev
  | destroyCharDev
  | classDestroy
  | cdevDel
  | unregChrdevRegion
  | freeIrq
  | putButtonGpio
  | putLedGpio
deriving DecidableEq, Repr

/-- The body of `gpio_button_remove` as the ordered list of its calls:
`disable_irq`, the synchronous timer delete
(`timer_shutdown_sync` / `timer_delete_sync` / `del_timer_sync`),
`device_remove_file`, `device_destroy(cl, 0)` (sysfs device),
`device_destroy(cl, dev_num)` (character device node), `class_destroy`,
`cdev_del`, `unregister_chrdev_region`, `free_irq`,
`gpiod_put(button_gpio)`, `gpiod_put(led_gpio)`. -/
def gpio_button_remove : List RemoveAct :=
  [.disableIrq, .timerDeleteSync, .deviceRemoveFile, .destroySysfsDev,
   .destroyCharDev, .classDestroy, .cdevDel, .unregChrdevRegion,
   .freeIrq, .putButtonGpio, .putLedGpio]

/-- State of the system while `gpio_button_remove` executes, tracking
whether the button IRQ can still fire, whether the debounce timer is
pending, the two driver flags, which GPIO lines have been released,
and whether a timer expiry callback has ever run after a line was
released (the hazard C3 rules out). -/
structure RemState where
  irqEnabled : Bool
  timerPending : Bool
  debounce_active : Bool
  button_event_flag : Bool
  buttonReleased : Bool
  ledReleased : Bool
  badExpiry : Bool
deriving DecidableEq, Repr

/-- Events interleaving with the teardown: a button edge (running the
ISR if interrupts are still enabled), a timer expiry (running the
debounce callback if a timer is pending), or the next teardown
action. -/
inductive RemEv where
  | edge
  | expire (level : Int)
  | act (a : RemoveAct)
deriving DecidableEq, Repr

/-- Effect of one teardown action on the system state.  `disable_irq`
stops further ISR runs; the synchronous timer delete guarantees no
further expiry (`timerPending` becomes and stays false);
`gpiod_put` marks the lines released; the device/class/cdev teardown
calls touch none of these fields. -/
def applyRemoveAct (s : RemState) (a : RemoveAct) : RemState :=
  match a with
  | .disableIrq => { s with irqEnabled := false }
  | .timerDeleteSync => { s with timerPending := false }
  | .putButtonGpio => { s with buttonReleased := true }
  | .putLedGpio => { s with ledReleased := true }
  | _ => s

/-- One interleaved step.  A teardown action is only valid when it is
the next one of the remaining program (`prog`); an expiry that runs
while a GPIO line is already released sets `badExpiry`. -/
def remEvStep (s : RemState) (prog : List RemoveAct) (ev : RemEv) :
    Option (RemState × List RemoveAct) :=
  match ev with
  | .edge =>
    if s.irqEnabled && !s.debounce_active then
      some ({ s with debounce_active := true, timerPending := true }, prog)
    else some (s, prog)
  | .expire lvl =>
    if s.timerPending then
      some ({ s with
              button_event_flag :=
                if lvl = 0 then true else s.button_event_flag,
              debounce_active := false,
              timerPending := false,
              badExpiry :=
                s.badExpiry || s.buttonReleased || s.ledReleased }, prog)
    else some (s, prog)
  | .act a =>
    match prog with
    | [] => none
    | b :: rest =>
      if a = b then some (applyRemoveAct s a, rest) else none

/-- Run a list of interleaved events from a state and a remaining
teardown program. -/
def runRemove (s : RemState) (prog : List RemoveAct) :
    List RemEv → Option (RemState × List RemoveAct)
  | [] => some (s, prog)
  | ev :: evs =>
    match remEvStep s prog ev with
    | none => none
    | some (s', prog') => runRemove s' prog' evs


/-- Invariant carried through a teardown run: no bad expiry has
happened; while the timer delete is still ahead, no line has been
released; once the timer delete has run, interrupts are off and no
timer is pending; once `disable_irq` has run, interrupts are off; and
the remaining program is a suffix of the remove body. -/
def RemInv (s : RemState) (prog : List RemoveAct) : Prop :=
  s.badExpiry = false ∧
  (RemoveAct.timerDeleteSync ∈ prog →
    s.buttonReleased = false ∧ s.ledReleased = false) ∧
  (RemoveAct.timerDeleteSync ∉ prog →
    s.irqEnabled = false ∧ s.timerPending = false) ∧
  (RemoveAct.disableIrq ∉ prog → s.irqEnabled = false) ∧
  prog <:+ gpio_button_remove

theorem suffix_cases {α : Type} (a : α) (t l : List α)
    (h : l <:+ (a :: t)) : l = a :: t ∨ l <:+ t := by
  obtain ⟨p, hp⟩ := h
  cases p with
  | nil => left; simpa using hp
  | cons x xs =>
    right
    exact ⟨xs, (List.cons.inj hp).2⟩

theorem suffix_nil {α : Type} (l : List α) (h : l <:+ ([] : List α)) :
    l = [] := by
  obtain ⟨p, hp⟩ := h
  cases p <;> simp_all

/-- Order facts about suffixes of the remove body that the invariant
proof needs: `disable_irq` only ever appears together with a later
timer delete, and a suffix beginning at the timer delete or at either
`gpiod_put` has the earlier quiescence actions already behind it. -/
abbrev RemoveFacts (prog : List RemoveAct) : Prop :=
  (RemoveAct.disableIrq ∈ prog → RemoveAct.timerDeleteSync ∈ prog) ∧
  (prog.head? = some RemoveAct.timerDeleteSync →
    RemoveAct.disableIrq ∉ prog) ∧
  (prog.head? = some RemoveAct.putButtonGpio →
    RemoveAct.timerDeleteSync ∉ prog ∧ RemoveAct.disableIrq ∉ prog) ∧
  (prog.head? = some RemoveAct.putLedGpio →
    RemoveAct.timerDeleteSync ∉ prog ∧ RemoveAct.disableIrq ∉ prog)

theorem remove_suffix_facts (prog : List RemoveAct)
    (h : prog <:+ gpio_button_remove) : RemoveFacts prog := by
  unfold gpio_button_remove at h
  rcases suffix_cases _ _ _ h with rfl | h
  · decide
  rcases suffix_cases _ _ _ h with rfl | h
  · decide
  rcases suffix_cases _ _ _ h with rfl | h
  · decide
  rcases suffix_cases _ _ _ h with rfl | h
  · decide
  rcases suffix_cases _ _ _ h with rfl | h
  · decide
  rcases suffix_cases _ _ _ h with rfl | h
  · decide
  rcases suffix_cases _ _ _ h with rfl | h
  · decide
  rcases suffix_cases _ _ _ h with rfl | h
  · decide
  rcases suffix_cases _ _ _ h with rfl | h
  · decide
  rcases suffix_cases _ _ _ h with rfl | h
  · decide
  rcases suffix_cases _ _ _ h with rfl | h
  · decide
  rw [suffix_nil _ h]
  decide

theorem remInv_tail (s : RemState) (a : RemoveAct)
    (prog' : List RemoveAct)
    (ha_td : a ≠ RemoveAct.timerDeleteSync)
    (ha_di : a ≠ RemoveAct.disableIrq)
    (hinv : RemInv s (a :: prog'))
    (hsuf' : prog' <:+ gpio_button_remove) : RemInv s prog' := by
  obtain ⟨hbad, hrel, htd, hdi, _⟩ := hinv
  refine ⟨hbad, fun hm => hrel (List.mem_cons_of_mem _ hm),
    fun hc => htd (fun hin => hc ?_),
    fun hc => hdi (fun hin => hc ?_), hsuf'⟩
  · rcases List.mem_cons.mp hin with hh | hh
    · exact absurd hh.symm ha_td
    · exact hh
  · rcases List.mem_cons.mp hin with hh | hh
    · exact absurd hh.symm ha_di
    · exact hh

theorem remEvStep_preserves_inv (s : RemState) (prog : List RemoveAct)
    (ev : RemEv) (s' : RemState) (prog' : List RemoveAct)
    (hinv : RemInv s prog)
    (hstep : remEvStep s prog ev = some (s', prog')) :
    RemInv s' prog' := by
  obtain ⟨hbad, hrel, htd, hdi, hsuf⟩ := hinv
  cases ev with
  | edge =>
    simp only [remEvStep] at hstep
    by_cases hg : (s.irqEnabled && !s.debounce_active) = true
    · rw [if_pos hg] at hstep
      have hpair := Option.some.inj hstep
      have hs' : { s with debounce_active := true, timerPending := true }
          = s' := congrArg Prod.fst hpair
      have hp' : prog = prog' := congrArg Prod.snd hpair
      subst hs'
      subst hp'
      have hirq : s.irqEnabled = true := (Bool.and_eq_true _ _ |>.mp hg).1
      have htd_in : RemoveAct.timerDeleteSync ∈ prog := by
        by_contra hc
        have := (htd hc).1
        rw [hirq] at this
        exact Bool.noConfusion this
      exact ⟨hbad, fun _ => hrel htd_in, fun hc => absurd htd_in hc,
             hdi, hsuf⟩
    · rw [if_neg hg] at hstep
      have hpair := Option.some.inj hstep
      have hs' : s = s' := congrArg Prod.fst hpair
      have hp' : prog = prog' := congrArg Prod.snd hpair
      subst hs'
      subst hp'
      exact ⟨hbad, hrel, htd, hdi, hsuf⟩
  | expire lvl =>
    simp only [remEvStep] at hstep
    by_cases hp : s.timerPending = true
    · rw [if_pos hp] at hstep
      have hpair := Option.some.inj hstep
      injection hpair with h1 h2
      subst h1
      subst h2
      have htd_in : RemoveAct.timerDeleteSync ∈ prog := by
        by_contra hc
        have := (htd hc).2
        rw [hp] at this
        exact Bool.noConfusion this
      have hrelv := hrel htd_in
      refine ⟨?_, fun _ => ⟨hrelv.1, hrelv.2⟩,
              fun hc => absurd htd_in hc, hdi, hsuf⟩
      simp [hbad, hrelv.1, hrelv.2]
    · rw [if_neg hp] at hstep
      have hpair := Option.some.inj hstep
      have hs' : s = s' := congrArg Prod.fst hpair
      have hp' : prog = prog' := congrArg Prod.snd hpair
      subst hs'
      subst hp'
      exact ⟨hbad, hrel, htd, hdi, hsuf⟩
  | act a =>
    simp only [remEvStep] at hstep
    cases prog with
    | nil => exact Option.noConfusion hstep
    | cons b rest =>
      have hstep2 : (if a = b then some (applyRemoveAct s a, rest)
          else none) = some (s', prog') := hstep
      by_cases hab : a = b
      · rw [if_pos hab] at hstep2
        subst hab
        have hpair := Option.some.inj hstep2
        have hs' : applyRemoveAct s a = s' := congrArg Prod.fst hpair
        have hp' : rest = prog' := congrArg Prod.snd hpair
        subst hs'
        subst hp'
        have hsuf' : rest <:+ gpio_button_remove := by
          obtain ⟨p, hp2⟩ := hsuf
          exact ⟨p ++ [a], by simpa using hp2⟩
        have hfacts := remove_suffix_facts (a :: rest) hsuf
        have hinv0 : RemInv s (a :: rest) := ⟨hbad, hrel, htd, hdi, hsuf⟩
        cases a with
        | disableIrq =>
          have htd_in : RemoveAct.timerDeleteSync
              ∈ RemoveAct.disableIrq :: rest :=
            hfacts.1 (List.mem_cons_self _ _)
          have htd_in' : RemoveAct.timerDeleteSync ∈ rest := by
            rcases List.mem_cons.mp htd_in with hh | hh
            · exact absurd hh (by decide)
            · exact hh
          exact ⟨hbad, fun _ => hrel htd_in,
                 fun hc => absurd htd_in' hc, fun _ => rfl, hsuf'⟩
        | timerDeleteSync =>
          have hdi_notin : RemoveAct.disableIrq
              ∉ RemoveAct.timerDeleteSync :: rest := hfacts.2.1 rfl
          have hirq : s.irqEnabled = false := hdi hdi_notin
          have hdi_notin' : RemoveAct.disableIrq ∉ rest := fun hin =>
            hdi_notin (List.mem_cons_of_mem _ hin)
          exact ⟨hbad, fun hm => hrel (List.mem_cons_of_mem _ hm),
                 fun _ => ⟨hirq, rfl⟩, fun _ => hirq, hsuf'⟩
        | putButtonGpio =>
          have hnot := hfacts.2.2.1 rfl
          have hq := htd hnot.1
          refine ⟨hbad, fun hm =>
              absurd (List.mem_cons_of_mem _ hm) hnot.1,
            fun _ => ⟨hq.1, hq.2⟩, fun _ => hq.1, hsuf'⟩
        | putLedGpio =>
          have hnot := hfacts.2.2.2 rfl
          have hq := htd hnot.1
          refine ⟨hbad, fun hm =>
              absurd (List.mem_cons_of_mem _ hm) hnot.1,
            fun _ => ⟨hq.1, hq.2⟩, fun _ => hq.1, hsuf'⟩
        | deviceRemoveFile =>
          exact remInv_tail s _ rest (by decide) (by decide) hinv0 hsuf'
        | destroySysfsDev =>
          exact remInv_tail s _ rest (by decide) (by decide) hinv0 hsuf'
        | destroyCharDev =>
          exact remInv_tail s _ rest (by decide) (by decide) hinv0 hsuf'
        | classDestroy =>
          exact remInv_tail s _ rest (by decide) (by decide) hinv0 hsuf'
        | cdevDel =>
          exact remInv_tail s _ rest (by decide) (by decide) hinv0 hsuf'
        | unregChrdevRegion =>
          exact remInv_tail s _ rest (by decide) (by decide) hinv0 hsuf'
        | freeIrq =>
          exact remInv_tail s _ rest (by decide) (by decide) hinv0 hsuf'
      · rw [if_neg hab] at hstep2
        exact Option.noConfusion hstep2

theorem runRemove_preserves_inv :
    ∀ (evs : List RemEv) (s : RemState) (prog : List RemoveAct)
      (res : RemState × List RemoveAct),
      RemInv s prog → runRemove s prog evs = some res →
      RemInv res.1 res.2 := by
  intro evs
  induction evs with
  | nil =>
    intro s prog res hinv hrun
    have h := Option.some.inj hrun
    rw [← h]
    exact hinv
  | cons ev evs ih =>
    intro s prog res hinv hrun
    unfold runRemove at hrun
    cases hstep : remEvStep s prog ev with
    | none => rw [hstep] at hrun; exact Option.noConfusion hrun
    | some p =>
      rw [hstep] at hrun
      exact ih p.1 p.2 res
        (remEvStep_preserves_inv s prog ev p.1 p.2 hinv
          (by rw [hstep]))
        hrun

/-- C3: `gpio_button_remove` first disables the button interrupt, then
synchronously deletes the debounce timer, and only afterwards
unregisters the device interfaces and releases the button and LED
lines; consequently, in any interleaved execution of the teardown with
edge and expiry events, an expiry callback never runs after either
GPIO line has been released (`badExpiry` stays false). -/
theorem C3_remove_quiescence :
    (gpio_button_remove.indexOf RemoveAct.disableIrq
       < gpio_button_remove.indexOf RemoveAct.timerDeleteSync ∧
     gpio_button_remove.indexOf RemoveAct.timerDeleteSync
       < gpio_button_remove.indexOf RemoveAct.deviceRemoveFile ∧
     gpio_button_remove.indexOf RemoveAct.timerDeleteSync
       < gpio_button_remove.indexOf RemoveAct.destroyCharDev ∧
     gpio_button_remove.indexOf RemoveAct.timerDeleteSync
       < gpio_button_remove.indexOf RemoveAct.putButtonGpio ∧
     gpio_button_remove.indexOf RemoveAct.timerDeleteSync
       < gpio_button_remove.indexOf RemoveAct.putLedGpio) ∧
    (∀ (evs : List RemEv) (s0 : RemState)
       (res : RemState × List RemoveAct),
      s0.buttonReleased = false → s0.ledReleased = false →
      s0.badExpiry = false →
      runRemove s0 gpio_button_remove evs = some res →
      res.1.badExpiry = false) := by
  constructor
  · decide
  · intro evs s0 res hbr hlr hbad hrun
    have hinv0 : RemInv s0 gpio_button_remove := by
      refine ⟨hbad, fun _ => ⟨hbr, hlr⟩,
        fun hc => absurd (by decide :
          RemoveAct.timerDeleteSync ∈ gpio_button_remove) hc,
        fun hc => absurd (by decide :
          RemoveAct.disableIrq ∈ gpio_button_remove) hc,
        ⟨[], rfl⟩⟩
    exact (runRemove_preserves_inv evs s0 gpio_button_remove res
      hinv0 hrun).1

/-- A concrete teardown interleaving for the C3 witness: remove is
entered with the timer pending, the pending timer fires once, then the
whole teardown runs. -/
def remDemoS0 : RemState :=
  { irqEnabled := true, timerPending := true, debounce_active := true
    button_event_flag := false, buttonReleased := false
    ledReleased := false, badExpiry := false }

/-- Final state of the demo teardown run. -/
def remDemoRes : RemState × List RemoveAct :=
  ({ irqEnabled := false, timerPending := false, debounce_active := false
     button_event_flag := true, buttonReleased := true
     ledReleased := true, badExpiry := false }, [])

/-- Witness for C3 on the concrete demo interleaving. -/
theorem C3_remove_quiescence_witness : remDemoRes.1.badExpiry = false :=
  C3_remove_quiescence.2
    (RemEv.expire 0 :: gpio_button_remove.map RemEv.act)
    remDemoS0 remDemoRes rfl rfl rfl (by decide)

/-- The releasable resources acquired during `gpio_button_probe`
(`timer_setup` initializes a static, unarmed timer and acquires no
releasable resource; the versioned timer-delete on the error paths is
a no-op for it and is therefore not tracked as a resource release). -/
inductive Res where
  | buttonLine
  | ledLine
  | irqReg
  | chrdevRegion
  | cdevObj
  | classObj
  | charDevNode
  | sysfsDevNode
  | sysfsAttr
deriving DecidableEq, Repr

/-- The fallible steps of `gpio_button_probe`, in source order
(`gpiod_get` button, `gpiod_get` led, `gpiod_to_irq`, `request_irq`,
`alloc_chrdev_region`, `cdev_add`, `class_create`, the two
`device_create` calls, `device_create_file`). -/
inductive ProbeStep where
  | getButton
  | getLed
  | toIrq
  | requestIrq
  | allocChrdev
  | cdevAdd
  | classCreate
  | devCreateChar
  | devCreateSysfs
  | createFile
deriving DecidableEq, Repr

/-- Releases performed from label `err_led`: `gpiod_put(button_gpio)`. -/
def err_led_releases : List Res := [.buttonLine]

/-- Releases from label `err_irqnum`: `gpiod_put(led_gpio)`, then
fallthrough to `err_led`. -/
def err_irqnum_releases : List Res := .ledLine :: err_led_releases

/-- Releases from label `err_req_irq`: nothing of its own, fallthrough
to `err_irqnum`. -/
def err_req_irq_releases : List Res := err_irqnum_releases

/-- Releases from label `err_alloc`: `free_irq`, the timer delete
(no tracked resource), then fallthrough to `err_irqnum`. -/
def err_alloc_releases : List Res := .irqReg :: err_irqnum_releases

/-- Releases from label `err_add`: nothing of its own, fallthrough to
`err_alloc` — note that this skips `unregister_chrdev_region`. -/
def err_add_releases : List Res := err_alloc_releases

/-- Releases from label `err_class`: `cdev_del`,
`unregister_chrdev_region`, then fallthrough through `err_add` to
`err_alloc`. -/
def err_class_releases : List Res :=
  .cdevObj :: .chrdevRegion :: err_alloc_releases

/-- Releases from label `err_dev_chardev`: `class_destroy`, then
fallthrough to `err_class`. -/
def err_dev_chardev_releases : List Res := .classObj :: err_class_releases

/-- Releases from label `err_dev_sysfs`: `device_destroy(cl, dev_num)`,
then fallthrough to `err_dev_chardev`. -/
def err_dev_sysfs_releases : List Res :=
  .charDevNode :: err_dev_chardev_releases

/-- Releases from label `err_sysfs_attr`: `device_destroy(cl, 0)`, then
fallthrough to `err_dev_sysfs`. -/
def err_sysfs_attr_releases : List Res :=
  .sysfsDevNode :: err_dev_sysfs_releases

/-- Model of `gpio_button_probe` under a failure oracle saying which
step fails first.  Result: whether probe succeeded, the resources
acquired (in acquisition order) before the failing step, and the
resources released by the error path taken (in release order). -/
def gpio_button_probe (fails : ProbeStep → Bool) :
    Bool × List Res × List Res :=
  if fails .getButton then (false, [], [])
  else if fails .getLed then (false, [.buttonLine], err_led_releases)
  else if fails .toIrq then
    (false, [.buttonLine, .ledLine], err_irqnum_releases)
  else if fails .requestIrq then
    (false, [.buttonLine, .ledLine], err_req_irq_releases)
  else if fails .allocChrdev then
    (false, [.buttonLine, .ledLine, .irqReg], err_alloc_releases)
  else if fails .cdevAdd then
    (false, [.buttonLine, .ledLine, .irqReg, .chrdevRegion],
     err_add_releases)
  else if fails .classCreate then
    (false, [.buttonLine, .ledLine, .irqReg, .chrdevRegion, .cdevObj],
     err_class_releases)
  else if fails .devCreateChar then
    (false, [.buttonLine, .ledLine, .irqReg, .chrdevRegion, .cdevObj,
             .classObj],
     err_dev_chardev_releases)
  else if fails .devCreateSysfs then
    (false, [.buttonLine, .ledLine, .irqReg, .chrdevRegion, .cdevObj,
             .classObj, .charDevNode],
     err_dev_sysfs_releases)
  else if fails .createFile then
    (false, [.buttonLine, .ledLine, .irqReg, .chrdevRegion, .cdevObj,
             .classObj, .charDevNode, .sysfsDevNode],
     err_sysfs_attr_releases)
  else
    (true, [.buttonLine, .ledLine, .irqReg, .chrdevRegion, .cdevObj,
            .classObj, .charDevNode, .sysfsDevNode, .sysfsAttr], [])

/-- Failure oracle that fails exactly at `cdev_add`. -/
def failAtCdevAdd (st : ProbeStep) : Bool :=
  st == ProbeStep.cdevAdd

/-- C6 is violated by the code: when `cdev_add` fails, probe fails and
takes the `err_add` path, which falls through into `err_alloc` and
never runs `unregister_chrdev_region` — the chrdev region acquired by
the earlier `alloc_chrdev_region` step is left unreleased, so the
rollback is not the strict reverse of the acquisitions (for contrast,
a `class_create` failure does release everything in strict reverse
order). -/
theorem C6_probe_cdev_add_leak :
    (gpio_button_probe failAtCdevAdd).1 = false ∧
    Res.chrdevRegion ∈ (gpio_button_probe failAtCdevAdd).2.1 ∧
    Res.chrdevRegion ∉ (gpio_button_probe failAtCdevAdd).2.2 ∧
    (gpio_button_probe failAtCdevAdd).2.2
      ≠ (gpio_button_probe failAtCdevAdd).2.1.reverse ∧
    (gpio_button_probe (fun st => st == ProbeStep.classCreate)).2.2
      = (gpio_button_probe
          (fun st => st == ProbeStep.classCreate)).2.1.reverse := by
  decide

end GpioButton
